import Mathlib

/-!
# Verification of the Dijkstra path solver (src/solver.py)

A shallow embedding of `solver.py` and proofs about the claims drawn from
its specification.

Modelling decisions, justified against the source:

* Python `Node` objects are heap objects mutated in place and compared by
  identity (`Node` defines no `__eq__`).  `ensure_node` keeps exactly one
  `Node` per name, so within one run a node's identity is its name.  We
  therefore use an arena-style state: the graph is an association list
  from the name to the node record, and `Edge` stores the *names* of its
  endpoint nodes instead of object references (this also breaks the
  reference cycle Node -> Edge -> Node that a literal translation would
  need).
* `Queue.PriorityQueue.get` removes a minimum element; with equal
  priorities the choice depends on heap internals.  The embedding removes
  the leftmost minimum.  Every concrete run analysed below has a unique
  minimum at every extraction, so any faithful min-extraction agrees.
  `PriorityQueue.get` on an *empty* queue blocks forever (the program is
  single threaded, so nothing can ever `put`); the embedding represents
  that as the terminal outcome `blocked`.
* The `while` loops of `__main__` (lines 201-216 and 218-221 of
  solver.py) have no termination guarantee, so they are embedded with
  explicit fuel; running out of fuel is the outcome `fuelOut` and is kept
  distinct from every real outcome of the program.
* File parsing (`get_graph_from_file`, lines 153-159) is out of scope per
  the spec; the builder is embedded from line 156 on, taking the already
  split `(start_name, end_name, weight)` triples.
-/

/-- Line 10 of solver.py: `INFINITY = 100000000`. -/
def INFINITY : Int := 100000000

/-- Line 11 of solver.py: `UNDEFINED = -1`. -/
def UNDEFINED : Int := -1

/-- Edge (solver.py lines 67-98): a directed weighted connection.  The
`__start_node`/`__end_node` object references are embedded as the names of
those nodes (one node per name, see the header comment). -/
structure Edge where
  start_node : String
  end_node : String
  cost : Int
deriving DecidableEq

/-- Node (solver.py lines 13-65): mutable per-node state.  Getters and
setters are plain field access/update. -/
structure Node where
  cost : Int
  connections : List Edge
  name : String
  edge_to_me : Option Edge
deriving DecidableEq

/-- `Node.__init__` (solver.py lines 15-19). -/
def mkNode (name : String) : Node :=
  { cost := UNDEFINED, connections := [], name := name, edge_to_me := none }

/-- `Edge.get_other_node` (solver.py lines 82-93).  Python compares node
objects by identity, which coincides with name equality. -/
def Edge.get_other_node (e : Edge) (node : String) : String :=
  if node = e.start_node then e.end_node else e.start_node

/-- The graph dictionary `{String name : Node instance}` of `__main__`,
as an association list with the dict's first-match lookup. -/
abbrev Graph := List (String × Node)

/-- Dictionary lookup `graph[name]` / membership `name in graph`:
`lookup g name = none` exactly when the key is absent. -/
def lookup : Graph → String → Option Node
  | [], _ => none
  | p :: rest, name => if p.1 = name then some p.2 else lookup rest name

/-- Reading a node through a reference the Python code already holds.  The
default branch is never taken in a run of the program: Python holds the
object directly.  (Kept total so the step function is total.) -/
def getNode (g : Graph) (name : String) : Node :=
  (lookup g name).getD (mkNode name)

/-- In-place mutation of the node registered under `name`. -/
def updateNode (g : Graph) (name : String) (f : Node → Node) : Graph :=
  g.map (fun p => if p.1 = name then (p.1, f p.2) else p)

/-- `ensure_node` (solver.py lines 126-142): return the node for `name`,
creating and registering it first when absent.  The mutated dictionary is
returned alongside. -/
def ensure_node (graph : Graph) (name : String) : Node × Graph :=
  match lookup graph name with
  | none => (mkNode name, graph ++ [(name, mkNode name)])
  | some node => (node, graph)

/-- `start_city.add_connection(Edge(start_city, end_city, int(cost)))`
(solver.py line 164, with `add_connection` from lines 33-35). -/
def add_connection (g : Graph) (name : String) (e : Edge) : Graph :=
  updateNode g name (fun nd => { nd with connections := nd.connections ++ [e] })

/-- The graph-building loop of `get_graph_from_file` (solver.py lines
156-166), starting from the already split records. -/
def build_graph (lines : List (String × String × Int)) : Graph :=
  lines.foldl
    (fun g rec_ =>
      let g1 := (ensure_node g rec_.1).2
      let g2 := (ensure_node g1 rec_.2.1).2
      add_connection g2 rec_.1 (Edge.mk rec_.1 rec_.2.1 rec_.2.2))
    []

/-- PossibleMove (solver.py lines 101-123): `cost` is computed in the
constructor as `edge.get_cost() + start_node.get_cost()` at creation
time. -/
structure PossibleMove where
  start_node : String
  edge : Edge
  cost : Int
deriving DecidableEq

/-- `PriorityQueue.get`: remove a minimum-cost move (the leftmost one among
equals; every extraction in the concrete runs below has a unique minimum,
so any faithful min-extraction agrees).  Returns `none` on the empty
queue, where the Python call would block forever. -/
def pq_get : List PossibleMove → Option (PossibleMove × List PossibleMove)
  | [] => none
  | m :: rest =>
    match pq_get rest with
    | none => some (m, [])
    | some (m', rest') => if m.cost ≤ m'.cost then some (m, rest) else some (m', m :: rest')

/-- The mutable state of the search loop (solver.py lines 196-216): the
graph (holding each node's `cost` and `edge_to_me`), the `current_node`,
and `possible_moves_queue`. -/
structure SState where
  graph : Graph
  current : String
  queue : List PossibleMove
deriving DecidableEq

/-- Lines 203-205: the queue after `put`ting one PossibleMove per outgoing
edge of the current node. -/
def frontier_after_push (s : SState) : List PossibleMove :=
  s.queue ++ (getNode s.graph s.current).connections.map
    (fun e => PossibleMove.mk s.current e (e.cost + (getNode s.graph s.current).cost))

/-- Lines 208-216 after a successful `get`: `next_node` is
`next_edge.get_other_node(current_node)`; `set_edge_to_me` stores the
edge; `compute_cost` (lines 37-45) adds the edge cost to the cost of
`edge.get_other_node(next_node)` read from the pre-update state. -/
def advance (s : SState) (mv : PossibleMove) (q' : List PossibleMove) : SState :=
  let next_name := mv.edge.get_other_node s.current
  let got_to_name := mv.edge.get_other_node next_name
  let new_cost := mv.edge.cost + (getNode s.graph got_to_name).cost
  { graph := updateNode s.graph next_name
      (fun nd => { nd with cost := new_cost, edge_to_me := some mv.edge })
    current := next_name
    queue := q' }

/-- Outcome of one pass through the loop head at line 201. -/
inductive StepOut where
  | done : SState → StepOut
  | blocked : StepOut
  | next : SState → StepOut
deriving DecidableEq

/-- One iteration of the search loop (lines 201-216): exit when
`current_node == end_node` (object identity = name equality); otherwise
push the current node's moves, then `get` — blocking forever if the queue
is empty — and advance. -/
def search_step (end_name : String) (s : SState) : StepOut :=
  if s.current = end_name then .done s
  else
    match pq_get (frontier_after_push s) with
    | none => .blocked
    | some (mv, q') => .next (advance s mv q')

/-- Result of running the search loop with the given fuel. -/
inductive SearchResult where
  | fuelOut : SearchResult
  | blocked : SearchResult
  | reached : SState → SearchResult
deriving DecidableEq

/-- The search loop, fueled. -/
def search_run (end_name : String) : Nat → SState → SearchResult
  | 0, _ => .fuelOut
  | fuel + 1, s =>
    match search_step end_name s with
    | .done s' => .reached s'
    | .blocked => .blocked
    | .next s' => search_run end_name fuel s'

/-- The reconstruction loop (solver.py lines 218-225), fueled: follow
`edge_to_me` pushing each visited node, stop at a node with no
`edge_to_me`; the pops then print the stack in reverse append order. -/
def recon_loop (g : Graph) : Nat → String → List String → Option (List String)
  | 0, _, _ => none
  | fuel + 1, current, stack =>
    match (getNode g current).edge_to_me with
    | none => some stack.reverse
    | some e => recon_loop g fuel (e.get_other_node current) (stack ++ [current])

/-- Observable outcome of one `__main__` run (after the graph is built):
an uncaught `KeyError` on a missing start/end name, the printed sequence
of names, the blocking `get` on an empty queue, or fuel exhaustion (never
an outcome of the real program; it marks a run on which the program is
still looping). -/
inductive MainResult where
  | keyError : String → MainResult
  | output : List String → MainResult
  | blockedQueue : MainResult
  | outOfFuel : MainResult
deriving DecidableEq

/-- Lines 190-191: `for node in graph: graph[node].set_cost(INFINITY)`. -/
def init_costs (g : Graph) : Graph :=
  g.map (fun p => (p.1, { p.2 with cost := INFINITY }))

/-- `__main__` from line 190 on: initialize costs, resolve the start and
end names (an absent name raises KeyError, start first — lines 193-194),
set the start cost to 0, run the search, then reconstruct and print. -/
def dijkstra_main (lines : List (String × String × Int))
    (start_name end_name : String) (fuel : Nat) : MainResult :=
  let graph := init_costs (build_graph lines)
  match lookup graph start_name with
  | none => .keyError start_name
  | some _ =>
    match lookup graph end_name with
    | none => .keyError end_name
    | some _ =>
      let graph := updateNode graph start_name (fun nd => { nd with cost := 0 })
      match search_run end_name fuel { graph := graph, current := start_name, queue := [] } with
      | .fuelOut => .outOfFuel
      | .blocked => .blockedQueue
      | .reached s =>
        match recon_loop s.graph fuel s.current [] with
        | none => .outOfFuel
        | some names => .output names

/-- One pass of the loop head as a total function on states: terminal
passes (loop exit or a blocking `get`) leave the state unchanged. -/
def stepTotal (end_name : String) (s : SState) : SState :=
  match search_step end_name s with
  | .next s' => s'
  | _ => s

/-- The state at the k-th arrival at the loop head (line 201). -/
def strace (end_name : String) (s0 : SState) : Nat → SState
  | 0 => s0
  | k + 1 => stepTotal end_name (strace end_name s0 k)

/-- The node whose `cost` and `edge_to_me` the iteration starting at `s`
writes (`next_node` of lines 210-214), when the iteration proceeds. -/
def writtenNode (end_name : String) (s : SState) : Option String :=
  if s.current = end_name then none
  else (pq_get (frontier_after_push s)).map
    (fun p => p.1.edge.get_other_node s.current)

/-- The node whose `cost` the iteration starting at `s` reads in
`compute_cost` (`node_that_got_to_me` of solver.py line 44), when the
iteration proceeds. -/
def readNode (end_name : String) (s : SState) : Option String :=
  if s.current = end_name then none
  else (pq_get (frontier_after_push s)).map
    (fun p => p.1.edge.get_other_node (p.1.edge.get_other_node s.current))

/-! ## Concrete runs used by the claims

Each state below was obtained by hand-tracing solver.py and is checked
against the embedding by `rfl` in the theorems that use it. -/

/-- C5 scenario: two disconnected components. -/
def c5lines : List (String × String × Int) := [("A", "B", 1), ("C", "D", 1)]

/-- The search state entering the loop for the C5 scenario. -/
def c5s0 : SState :=
  { graph := [("A", ⟨0, [⟨"A", "B", 1⟩], "A", none⟩),
              ("B", ⟨INFINITY, [], "B", none⟩),
              ("C", ⟨INFINITY, [⟨"C", "D", 1⟩], "C", none⟩),
              ("D", ⟨INFINITY, [], "D", none⟩)]
    current := "A", queue := [] }

/-- The C5 state after one iteration: at "B" with an empty queue and no
outgoing edges, so the next `get` blocks. -/
def c5s1 : SState :=
  { graph := [("A", ⟨0, [⟨"A", "B", 1⟩], "A", none⟩),
              ("B", ⟨1, [], "B", some ⟨"A", "B", 1⟩⟩),
              ("C", ⟨INFINITY, [⟨"C", "D", 1⟩], "C", none⟩),
              ("D", ⟨INFINITY, [], "D", none⟩)]
    current := "B", queue := [] }

/-- C1/C4/C8 scenario: weights 2, 3, 4; the unique cheapest A-to-C path is
the direct edge A-C of weight 3. -/
def c1lines : List (String × String × Int) := [("A", "B", 2), ("A", "C", 3), ("B", "C", 4)]

/-- The search state entering the loop for the C1 scenario. -/
def c1s0 : SState :=
  { graph := [("A", ⟨0, [⟨"A", "B", 2⟩, ⟨"A", "C", 3⟩], "A", none⟩),
              ("B", ⟨INFINITY, [⟨"B", "C", 4⟩], "B", none⟩),
              ("C", ⟨INFINITY, [], "C", none⟩)]
    current := "A", queue := [] }

/-- C1 scenario after one iteration: B reached through A-B, genuinely. -/
def c1s1 : SState :=
  { graph := [("A", ⟨0, [⟨"A", "B", 2⟩, ⟨"A", "C", 3⟩], "A", none⟩),
              ("B", ⟨2, [⟨"B", "C", 4⟩], "B", some ⟨"A", "B", 2⟩⟩),
              ("C", ⟨INFINITY, [], "C", none⟩)]
    current := "B", queue := [⟨"A", ⟨"A", "C", 3⟩, 3⟩] }

/-- C1 scenario after two iterations: the stale move (A, A-C, 3) was
extracted while the current node was B, so the walk went *backwards* to A
and A's cost was computed from C's still-infinite cost. -/
def c1s2 : SState :=
  { graph := [("A", ⟨100000003, [⟨"A", "B", 2⟩, ⟨"A", "C", 3⟩], "A", some ⟨"A", "C", 3⟩⟩),
              ("B", ⟨2, [⟨"B", "C", 4⟩], "B", some ⟨"A", "B", 2⟩⟩),
              ("C", ⟨INFINITY, [], "C", none⟩)]
    current := "A", queue := [⟨"B", ⟨"B", "C", 4⟩, 6⟩] }

/-- C1 scenario after three iterations. -/
def c1s3 : SState :=
  { graph := [("A", ⟨100000003, [⟨"A", "B", 2⟩, ⟨"A", "C", 3⟩], "A", some ⟨"A", "C", 3⟩⟩),
              ("B", ⟨100000004, [⟨"B", "C", 4⟩], "B", some ⟨"B", "C", 4⟩⟩),
              ("C", ⟨INFINITY, [], "C", none⟩)]
    current := "B",
    queue := [⟨"A", ⟨"A", "B", 2⟩, 100000005⟩, ⟨"A", ⟨"A", "C", 3⟩, 100000006⟩] }

/-- C1 scenario after four iterations. -/
def c1s4 : SState :=
  { graph := [("A", ⟨100000006, [⟨"A", "B", 2⟩, ⟨"A", "C", 3⟩], "A", some ⟨"A", "B", 2⟩⟩),
              ("B", ⟨100000004, [⟨"B", "C", 4⟩], "B", some ⟨"B", "C", 4⟩⟩),
              ("C", ⟨INFINITY, [], "C", none⟩)]
    current := "A",
    queue := [⟨"A", ⟨"A", "C", 3⟩, 100000006⟩, ⟨"B", ⟨"B", "C", 4⟩, 100000008⟩] }

/-- The graph state when the C1 search loop exits: every back-pointer is
set, and following them from any of the three nodes cycles forever
(C via A-C to A, A via A-B to B, B via B-C back to C). -/
def c1gF : Graph :=
  [("A", ⟨100000006, [⟨"A", "B", 2⟩, ⟨"A", "C", 3⟩], "A", some ⟨"A", "B", 2⟩⟩),
   ("B", ⟨100000004, [⟨"B", "C", 4⟩], "B", some ⟨"B", "C", 4⟩⟩),
   ("C", ⟨100000009, [], "C", some ⟨"A", "C", 3⟩⟩)]

/-- The full search state at loop exit for the C1 scenario. -/
def c1s5 : SState :=
  { graph := c1gF
    current := "C"
    queue := [⟨"B", ⟨"B", "C", 4⟩, 100000008⟩,
              ⟨"A", ⟨"A", "B", 2⟩, 100000008⟩,
              ⟨"A", ⟨"A", "C", 3⟩, 100000009⟩] }

/-- C3 scenario: a two-cycle between A and B; C exists (it has an outgoing
edge) but no edge leads into it. -/
def c3lines : List (String × String × Int) := [("A", "B", 1), ("B", "A", 1), ("C", "A", 1)]

/-- The search state entering the loop for the C3 scenario. -/
def c3s0 : SState :=
  { graph := [("A", ⟨0, [⟨"A", "B", 1⟩], "A", none⟩),
              ("B", ⟨INFINITY, [⟨"B", "A", 1⟩], "B", none⟩),
              ("C", ⟨INFINITY, [⟨"C", "A", 1⟩], "C", none⟩)]
    current := "A", queue := [] }

/-- C8 witness scenario: the straight chain A-B-C, on which every
extraction is a fresh move from the current node. -/
def c8lines : List (String × String × Int) := [("A", "B", 1), ("B", "C", 2)]

/-- The search state entering the loop for the C8 witness scenario. -/
def c8s0 : SState :=
  { graph := [("A", ⟨0, [⟨"A", "B", 1⟩], "A", none⟩),
              ("B", ⟨INFINITY, [⟨"B", "C", 2⟩], "B", none⟩),
              ("C", ⟨INFINITY, [], "C", none⟩)]
    current := "A", queue := [] }

/-- C8 witness scenario after one iteration: at "B" (cost 1, reached
through A-B) with an empty queue; the next extraction is the fresh move
(B, B-C, 3). -/
def c8s1 : SState :=
  { graph := [("A", ⟨0, [⟨"A", "B", 1⟩], "A", none⟩),
              ("B", ⟨1, [⟨"B", "C", 2⟩], "B", some ⟨"A", "B", 1⟩⟩),
              ("C", ⟨INFINITY, [], "C", none⟩)]
    current := "B", queue := [] }

/-! ## Helper lemmas about the association-list dictionary -/

theorem lookup_append_self (g : Graph) (name : String) (nd : Node)
    (h : lookup g name = none) : lookup (g ++ [(name, nd)]) name = some nd := by
  induction g with
  | nil => simp [lookup]
  | cons p rest ih =>
    rw [lookup] at h
    by_cases hp : p.1 = name
    · rw [if_pos hp] at h; exact absurd h (by simp)
    · rw [if_neg hp] at h
      simpa [lookup, hp] using ih h

theorem lookup_append_other (g : Graph) (name : String) (nd : Node)
    (m : String) (h : m ≠ name) :
    lookup (g ++ [(name, nd)]) m = lookup g m := by
  induction g with
  | nil => simp [lookup, if_neg (Ne.symm h)]
  | cons p rest ih =>
    by_cases hp : p.1 = m
    · simp [lookup, hp]
    · simp only [List.cons_append, lookup, if_neg hp]
      exact ih

theorem updateNode_cons (p : String × Node) (rest : Graph) (name : String)
    (f : Node → Node) :
    updateNode (p :: rest) name f =
      (if p.1 = name then (p.1, f p.2) else p) :: updateNode rest name f := rfl

theorem lookup_updateNode (g : Graph) (name : String) (f : Node → Node)
    (m : String) :
    lookup (updateNode g name f) m =
      if m = name then (lookup g m).map f else lookup g m := by
  induction g with
  | nil => simp [lookup, updateNode]
  | cons p rest ih =>
    rw [updateNode_cons]
    by_cases hp : p.1 = name
    · by_cases hm : p.1 = m
      · subst hp; subst hm
        simp [lookup]
      · rw [if_pos hp]
        simp only [lookup, if_neg hm]
        exact ih
    · by_cases hm : p.1 = m
      · subst hm
        rw [if_neg hp]
        simp [lookup, hp]
      · rw [if_neg hp]
        simp only [lookup, if_neg hm]
        exact ih

/-- Unfolding lemma for one iteration of the fueled search loop. -/
theorem search_run_succ (e : String) (fuel : Nat) (s : SState) :
    search_run e (fuel + 1) s =
      match search_step e s with
      | .done s' => .reached s'
      | .blocked => .blocked
      | .next s' => search_run e fuel s' := rfl

/-- Unfolding lemma for one iteration of the fueled reconstruction loop. -/
theorem recon_loop_succ (g : Graph) (fuel : Nat) (current : String)
    (stack : List String) :
    recon_loop g (fuel + 1) current stack =
      match (getNode g current).edge_to_me with
      | none => some stack.reverse
      | some e => recon_loop g fuel (e.get_other_node current) (stack ++ [current]) := rfl

/-! ## The claims -/

/-- Claim C10: for every Edge e and node n, `e.get_other_node n` returns
e's end node exactly when n is e's start node (or the edge is a self
loop, where both answers coincide), and returns e's start node in all
other cases — including when n is neither endpoint of e; the operation is
total and never checks that n lies on the edge. -/
theorem dijkstra_c10_get_other_node_spec (e : Edge) (n : String) :
    (e.get_other_node n = e.end_node ↔ (n = e.start_node ∨ e.start_node = e.end_node)) ∧
    (n ≠ e.start_node → e.get_other_node n = e.start_node) := by
  by_cases h : n = e.start_node <;> simp [Edge.get_other_node, h]

/-- Witness for C10 at a node that is neither endpoint of the edge. -/
theorem dijkstra_c10_get_other_node_spec_witness :
    Edge.get_other_node ⟨"A", "B", 1⟩ "Z" = "A" :=
  (dijkstra_c10_get_other_node_spec ⟨"A", "B", 1⟩ "Z").2 (by decide)

/-- Claim C9: `ensure_node` returns the existing node for a present name
and leaves the dictionary unchanged; for an absent name it creates a fresh
node, registers it under that name, returns it, and changes no other
entry; it is total. -/
theorem dijkstra_c9_ensure_node_spec (g : Graph) (name : String) :
    (∀ nd, lookup g name = some nd → ensure_node g name = (nd, g)) ∧
    (lookup g name = none →
      ensure_node g name = (mkNode name, g ++ [(name, mkNode name)]) ∧
      lookup (g ++ [(name, mkNode name)]) name = some (mkNode name) ∧
      ∀ m, m ≠ name → lookup (g ++ [(name, mkNode name)]) m = lookup g m) := by
  constructor
  · intro nd h; simp [ensure_node, h]
  · intro h
    exact ⟨by simp [ensure_node, h], lookup_append_self g name _ h,
      fun m hm => lookup_append_other g name _ m hm⟩

/-- Witness for C9: a present name is returned unchanged, an absent name
is created and registered. -/
theorem dijkstra_c9_ensure_node_spec_witness :
    ensure_node [("A", mkNode "A")] "A" = (mkNode "A", [("A", mkNode "A")]) ∧
    ensure_node ([] : Graph) "B" = (mkNode "B", [("B", mkNode "B")]) :=
  ⟨(dijkstra_c9_ensure_node_spec [("A", mkNode "A")] "A").1 (mkNode "A") rfl,
   ((dijkstra_c9_ensure_node_spec ([] : Graph) "B").2 rfl).1⟩

/-- Claim C2 (code bug): on edges A-B(1), B-C(2), A-C(5) from A to C the
search does follow the cheap route through B, but the reconstruction
loop (solver.py lines 218-221) stops *before* pushing the start node, so
the program prints "B", "C" — not the claimed full sequence "A", "B",
"C". -/
theorem dijkstra_c2_prints_path_without_start :
    dijkstra_main [("A", "B", 1), ("B", "C", 2), ("A", "C", 5)] "A" "C" 10 =
      .output ["B", "C"] ∧
    dijkstra_main [("A", "B", 1), ("B", "C", 2), ("A", "C", 5)] "A" "C" 10 ≠
      .output ["A", "B", "C"] := ⟨rfl, by decide⟩

/-- Claim C6 (code bug): when start and end coincide the loop in solver.py
lines 219-221 exits at once (the start node has no incoming edge), nothing
is ever pushed, and the program prints nothing — not the claimed
single-element sequence. -/
theorem dijkstra_c6_start_eq_end_prints_nothing :
    dijkstra_main [("A", "B", 1)] "A" "A" 10 = .output [] ∧
    dijkstra_main [("A", "B", 1)] "A" "A" 10 ≠ .output ["A"] := ⟨rfl, by decide⟩

/-- Claim C5 (code bug): on the disconnected graph A-B / C-D the search
from A exhausts the frontier after one move; solver.py line 208 then calls
`PriorityQueue.get()` on an empty queue, which blocks forever in this
single-threaded program — no `Unreachable` outcome exists anywhere in the
code, so nothing is ever reported.  The result is independent of the
remaining fuel. -/
theorem dijkstra_c5_empty_frontier_blocks (n : Nat) :
    dijkstra_main c5lines "A" "D" (n + 2) = .blockedQueue := by
  have h0 : dijkstra_main c5lines "A" "D" (n + 2) =
      (match search_run "D" (n + 2) c5s0 with
       | .fuelOut => MainResult.outOfFuel
       | .blocked => MainResult.blockedQueue
       | .reached s =>
         match recon_loop s.graph (n + 2) s.current [] with
         | none => MainResult.outOfFuel
         | some names => MainResult.output names) := rfl
  have h1 : search_run "D" (n + 2) c5s0 = search_run "D" (n + 1) c5s1 := by
    rw [show n + 2 = (n + 1) + 1 from rfl, search_run_succ,
      show search_step "D" c5s0 = .next c5s1 from rfl]
  have h2 : search_run "D" (n + 1) c5s1 = .blocked := by
    rw [search_run_succ, show search_step "D" c5s1 = .blocked from rfl]
  rw [h0, h1, h2]

/-- Counterexample for C7: with edges A-B(1), start A and end C, the run
ends in an uncaught key-lookup error on "C" (solver.py line 194 raises
KeyError); no explicit NotFound outcome is produced for the caller. -/
theorem dijkstra_c7_missing_name_key_error :
    dijkstra_main [("A", "B", 1)] "A" "C" 10 = .keyError "C" := rfl

/-- Claim C7 as amended: resolving a name never inserted into the graph
makes the program fail before the search begins with an uncaught
key-lookup error naming the absent name (start name checked first); the
source never converts this into the explicit NotFound outcome the claim
describes.  The failure happens before the search: the result does not
depend on the fuel. -/
theorem dijkstra_c7_key_error_amended (lines : List (String × String × Int))
    (start_name end_name : String) (fuel : Nat) :
    (lookup (init_costs (build_graph lines)) start_name = none →
      dijkstra_main lines start_name end_name fuel = .keyError start_name ∧
      dijkstra_main lines start_name end_name fuel =
        dijkstra_main lines start_name end_name 0) ∧
    (lookup (init_costs (build_graph lines)) start_name ≠ none →
      lookup (init_costs (build_graph lines)) end_name = none →
      dijkstra_main lines start_name end_name fuel = .keyError end_name ∧
      dijkstra_main lines start_name end_name fuel =
        dijkstra_main lines start_name end_name 0) := by
  constructor
  · intro h
    constructor <;> simp [dijkstra_main, h]
  · intro hs he
    obtain ⟨nd, hnd⟩ := Option.ne_none_iff_exists'.mp hs
    constructor <;> simp [dijkstra_main, hnd, he]

/-- Witness for C7 as amended, at the concrete scenario of the claim. -/
theorem dijkstra_c7_key_error_amended_witness :
    dijkstra_main [("A", "B", 1)] "A" "C" 10 = .keyError "C" ∧
    dijkstra_main [("A", "B", 1)] "A" "C" 10 = dijkstra_main [("A", "B", 1)] "A" "C" 0 :=
  (dijkstra_c7_key_error_amended [("A", "B", 1)] "A" "C" 10).2 (by decide) (by decide)

/-- Following `get_other_node` from an endpoint and back lands on the
node one started from, when one starts at the edge's start node. -/
theorem get_other_node_round (e : Edge) (cur : String) (h : e.start_node = cur) :
    e.get_other_node (e.get_other_node cur) = cur := by
  have h1 : e.get_other_node cur = e.end_node := by
    rw [Edge.get_other_node, if_pos h.symm]
  rw [h1, Edge.get_other_node]
  by_cases hse : e.end_node = e.start_node
  · rw [if_pos hse]; exact hse.trans h
  · rw [if_neg hse]; exact h

/-- On the C3 graph the loop state always returns to the shape "at A or at
B with an empty queue", whatever the costs and back-pointers are, so the
search consumes any amount of fuel. -/
theorem c3_search_loops (fuel : Nat) :
    ∀ (ca cb cc : Int) (ea eb ec : Option Edge) (cur : String),
      cur = "A" ∨ cur = "B" →
      search_run "C" fuel
        { graph := [("A", ⟨ca, [⟨"A", "B", 1⟩], "A", ea⟩),
                    ("B", ⟨cb, [⟨"B", "A", 1⟩], "B", eb⟩),
                    ("C", ⟨cc, [⟨"C", "A", 1⟩], "C", ec⟩)],
          current := cur, queue := [] } = .fuelOut := by
  induction fuel with
  | zero => intros; rfl
  | succ n ih =>
    intro ca cb cc ea eb ec cur hcur
    rcases hcur with h | h <;> subst h
    · rw [search_run_succ,
        show search_step "C"
            { graph := [("A", ⟨ca, [⟨"A", "B", 1⟩], "A", ea⟩),
                        ("B", ⟨cb, [⟨"B", "A", 1⟩], "B", eb⟩),
                        ("C", ⟨cc, [⟨"C", "A", 1⟩], "C", ec⟩)],
              current := "A", queue := [] } =
          .next { graph := [("A", ⟨ca, [⟨"A", "B", 1⟩], "A", ea⟩),
                            ("B", ⟨1 + ca, [⟨"B", "A", 1⟩], "B", some ⟨"A", "B", 1⟩⟩),
                            ("C", ⟨cc, [⟨"C", "A", 1⟩], "C", ec⟩)],
                  current := "B", queue := [] } from rfl]
      exact ih ca (1 + ca) cc ea (some ⟨"A", "B", 1⟩) ec "B" (Or.inr rfl)
    · rw [search_run_succ,
        show search_step "C"
            { graph := [("A", ⟨ca, [⟨"A", "B", 1⟩], "A", ea⟩),
                        ("B", ⟨cb, [⟨"B", "A", 1⟩], "B", eb⟩),
                        ("C", ⟨cc, [⟨"C", "A", 1⟩], "C", ec⟩)],
              current := "B", queue := [] } =
          .next { graph := [("A", ⟨1 + cb, [⟨"A", "B", 1⟩], "A", some ⟨"B", "A", 1⟩⟩),
                            ("B", ⟨cb, [⟨"B", "A", 1⟩], "B", eb⟩),
                            ("C", ⟨cc, [⟨"C", "A", 1⟩], "C", ec⟩)],
                  current := "A", queue := [] } from rfl]
      exact ih (1 + cb) cb cc (some ⟨"B", "A", 1⟩) eb ec "A" (Or.inl rfl)

/-- Claim C3 (code bug): on edges A-B(1), B-A(1), C-A(1) with start A and
end C, the search neither reaches C nor empties the frontier: it bounces
between A and B forever — for every fuel the run is still going.  The
claim that the search always terminates or fails with Unreachable is
violated by the code (the missing visited check lets extracted moves walk
the A-B cycle indefinitely). -/
theorem dijkstra_c3_search_never_terminates (fuel : Nat) :
    dijkstra_main c3lines "A" "C" fuel = .outOfFuel := by
  have h0 : dijkstra_main c3lines "A" "C" fuel =
      (match search_run "C" fuel c3s0 with
       | .fuelOut => MainResult.outOfFuel
       | .blocked => MainResult.blockedQueue
       | .reached s =>
         match recon_loop s.graph fuel s.current [] with
         | none => MainResult.outOfFuel
         | some names => MainResult.output names) := rfl
  rw [h0,
    show search_run "C" fuel c3s0 = .fuelOut from
      c3_search_loops fuel 0 INFINITY INFINITY none none none "A" (Or.inl rfl)]

/-- With any extra fuel, the C1 search reaches the end node after exactly
five iterations, in the corrupted state c1s5. -/
theorem c1_search_reaches (m : Nat) :
    search_run "C" (m + 6) c1s0 = .reached c1s5 := by
  have h1 : search_run "C" (m + 6) c1s0 = search_run "C" (m + 5) c1s1 := by
    rw [show m + 6 = (m + 5) + 1 from rfl, search_run_succ,
      show search_step "C" c1s0 = .next c1s1 from rfl]
  have h2 : search_run "C" (m + 5) c1s1 = search_run "C" (m + 4) c1s2 := by
    rw [show m + 5 = (m + 4) + 1 from rfl, search_run_succ,
      show search_step "C" c1s1 = .next c1s2 from rfl]
  have h3 : search_run "C" (m + 4) c1s2 = search_run "C" (m + 3) c1s3 := by
    rw [show m + 4 = (m + 3) + 1 from rfl, search_run_succ,
      show search_step "C" c1s2 = .next c1s3 from rfl]
  have h4 : search_run "C" (m + 3) c1s3 = search_run "C" (m + 2) c1s4 := by
    rw [show m + 3 = (m + 2) + 1 from rfl, search_run_succ,
      show search_step "C" c1s3 = .next c1s4 from rfl]
  have h5 : search_run "C" (m + 2) c1s4 = search_run "C" (m + 1) c1s5 := by
    rw [show m + 2 = (m + 1) + 1 from rfl, search_run_succ,
      show search_step "C" c1s4 = .next c1s5 from rfl]
  rw [h1, h2, h3, h4, h5, search_run_succ,
    show search_step "C" c1s5 = .done c1s5 from rfl]

/-- The back-pointers left by the C1 search form the cycle C to A to B to
C, so the reconstruction loop consumes any amount of fuel from any of the
three nodes. -/
theorem c1_recon_loops (fuel : Nat) :
    ∀ (cur : String) (stack : List String),
      cur = "A" ∨ cur = "B" ∨ cur = "C" →
      recon_loop c1gF fuel cur stack = none := by
  induction fuel with
  | zero => intros; rfl
  | succ n ih =>
    intro cur stack hcur
    rcases hcur with h | h | h <;> subst h
    · rw [recon_loop_succ,
        show (getNode c1gF "A").edge_to_me = some ⟨"A", "B", 2⟩ from rfl]
      exact ih _ _ (Or.inr (Or.inl rfl))
    · rw [recon_loop_succ,
        show (getNode c1gF "B").edge_to_me = some ⟨"B", "C", 4⟩ from rfl]
      exact ih _ _ (Or.inr (Or.inr rfl))
    · rw [recon_loop_succ,
        show (getNode c1gF "C").edge_to_me = some ⟨"A", "C", 3⟩ from rfl]
      exact ih _ _ (Or.inl rfl)

/-- Claim C1 (code bug): the graph A-B(2), A-C(3), B-C(4) has non-negative
weights and a unique minimum-cost path from A to C (the direct edge, total
3), yet the program never produces any path at all, whatever the fuel:
after a stale extraction corrupts the state, the search still reaches C,
but the recorded back-pointers form a cycle and the reconstruction loop
never terminates.  In particular no reconstructed path with total weight
at most every other start-to-end path's weight is produced. -/
theorem dijkstra_c1_pipeline_never_outputs (fuel : Nat) :
    dijkstra_main c1lines "A" "C" fuel = .outOfFuel := by
  have h0 : dijkstra_main c1lines "A" "C" fuel =
      (match search_run "C" fuel c1s0 with
       | .fuelOut => MainResult.outOfFuel
       | .blocked => MainResult.blockedQueue
       | .reached s =>
         match recon_loop s.graph fuel s.current [] with
         | none => MainResult.outOfFuel
         | some names => MainResult.output names) := rfl
  rw [h0]
  rcases Nat.lt_or_ge fuel 6 with h | h
  · interval_cases fuel <;> rfl
  · obtain ⟨m, rfl⟩ : ∃ m, fuel = m + 6 := ⟨fuel - 6, by omega⟩
    rw [c1_search_reaches m]
    show (match recon_loop c1gF (m + 6) "C" [] with
          | none => MainResult.outOfFuel
          | some names => MainResult.output names) = MainResult.outOfFuel
    rw [c1_recon_loops (m + 6) "C" [] (Or.inr (Or.inr rfl))]

/-- Counterexample for C4: in the C1 scenario the second iteration starts
at B (cost 2) and extracts the stale move (A, A-C, 3).  The claimed update
would set the next node's cost to 3 + 2 = 5; the code instead walks to A
and sets A's cost to 3 + cost(C) = 3 + INFINITY = 100000003, because
`compute_cost` reads the node across the edge from `next_node`, which here
is C, not the current node B. -/
theorem dijkstra_c4_stale_move_cost_counterexample :
    stepTotal "C" c1s0 = c1s1 ∧
    c1s1.current = "B" ∧
    (getNode c1s1.graph "B").cost = 2 ∧
    pq_get (frontier_after_push c1s1) =
      some (⟨"A", ⟨"A", "C", 3⟩, 3⟩, [⟨"B", ⟨"B", "C", 4⟩, 6⟩]) ∧
    Edge.get_other_node ⟨"A", "C", 3⟩ c1s1.current = "A" ∧
    stepTotal "C" c1s1 = c1s2 ∧
    (getNode c1s2.graph "A").cost = 100000003 ∧
    (getNode c1s2.graph "A").cost ≠ 3 + 2 := by
  refine ⟨rfl, rfl, rfl, rfl, rfl, rfl, rfl, by decide⟩

/-- Claim C4 as amended: when the iteration proceeds, `next_node` is the
far end of the extracted edge from the current node, its `incoming_edge`
(`edge_to_me`) is set to the extracted edge, and its cost is set to the
edge's weight plus the cost of the node across the edge from `next_node`;
that node is the current node — and the claimed formula holds — whenever
the extracted move's edge starts at the current node, but not in general
(see the counterexample). -/
theorem dijkstra_c4_step_cost_amended (end_name : String) (s : SState)
    (mv : PossibleMove) (q' : List PossibleMove)
    (hend : s.current ≠ end_name)
    (hpop : pq_get (frontier_after_push s) = some (mv, q'))
    (hmem : (lookup s.graph (mv.edge.get_other_node s.current)).isSome = true) :
    ∃ s', search_step end_name s = .next s' ∧
      s'.current = mv.edge.get_other_node s.current ∧
      (getNode s'.graph s'.current).edge_to_me = some mv.edge ∧
      (getNode s'.graph s'.current).cost =
        mv.edge.cost +
          (getNode s.graph
            (mv.edge.get_other_node (mv.edge.get_other_node s.current))).cost ∧
      (mv.edge.start_node = s.current →
        (getNode s'.graph s'.current).cost =
          mv.edge.cost + (getNode s.graph s.current).cost) := by
  obtain ⟨nd, hnd⟩ := Option.isSome_iff_exists.mp hmem
  have hgraph : (advance s mv q').graph =
      updateNode s.graph (mv.edge.get_other_node s.current)
        (fun ndd => { ndd with
          cost := mv.edge.cost +
            (getNode s.graph
              (mv.edge.get_other_node (mv.edge.get_other_node s.current))).cost
          edge_to_me := some mv.edge }) := rfl
  have hget : getNode (advance s mv q').graph (mv.edge.get_other_node s.current) =
      { nd with
        cost := mv.edge.cost +
          (getNode s.graph
            (mv.edge.get_other_node (mv.edge.get_other_node s.current))).cost
        edge_to_me := some mv.edge } := by
    rw [hgraph, getNode, lookup_updateNode, if_pos rfl, hnd]
    rfl
  refine ⟨advance s mv q', by rw [search_step, if_neg hend, hpop], rfl, ?_, ?_, ?_⟩
  · rw [show (advance s mv q').current = mv.edge.get_other_node s.current from rfl, hget]
  · rw [show (advance s mv q').current = mv.edge.get_other_node s.current from rfl, hget]
  · intro hstart
    rw [show (advance s mv q').current = mv.edge.get_other_node s.current from rfl, hget]
    show mv.edge.cost + _ = mv.edge.cost + _
    rw [get_other_node_round mv.edge s.current hstart]

/-- Witness for C4 as amended: the fresh extraction (B, B-C, 3) at state
c8s1 produces a next node C whose cost is the edge weight plus the current
node's cost. -/
theorem dijkstra_c4_step_cost_amended_witness :
    ∃ s', search_step "C" c8s1 = .next s' ∧
      s'.current = Edge.get_other_node ⟨"B", "C", 2⟩ c8s1.current ∧
      (getNode s'.graph s'.current).edge_to_me = some ⟨"B", "C", 2⟩ ∧
      (getNode s'.graph s'.current).cost =
        (⟨"B", "C", 2⟩ : Edge).cost +
          (getNode c8s1.graph
            (Edge.get_other_node ⟨"B", "C", 2⟩
              (Edge.get_other_node ⟨"B", "C", 2⟩ c8s1.current))).cost ∧
      ((⟨"B", "C", 2⟩ : Edge).start_node = c8s1.current →
        (getNode s'.graph s'.current).cost =
          (⟨"B", "C", 2⟩ : Edge).cost + (getNode c8s1.graph c8s1.current).cost) :=
  dijkstra_c4_step_cost_amended "C" c8s1 ⟨"B", ⟨"B", "C", 2⟩, 3⟩ []
    (by decide) (by decide) (by decide)

/-- Trace invariant: at every arrival at the loop head, the current node
is the original start node or the node some earlier iteration wrote (set
its cost and back-pointer); the search only ever stands on nodes whose
cost it has assigned. -/
theorem strace_written (end_name : String) (s0 : SState) (k : Nat) :
    (strace end_name s0 k).current = s0.current ∨
    ∃ j, j < k ∧ writtenNode end_name (strace end_name s0 j) =
      some ((strace end_name s0 k).current) := by
  induction k with
  | zero => exact Or.inl rfl
  | succ n ih =>
    have hsucc : strace end_name s0 (n + 1) =
        stepTotal end_name (strace end_name s0 n) := rfl
    rcases hstep : search_step end_name (strace end_name s0 n) with s' | _ | s'
    · have hsame : stepTotal end_name (strace end_name s0 n) =
          strace end_name s0 n := by
        rw [stepTotal, hstep]
      rw [hsucc, hsame]
      refine ih.imp id ?_
      rintro ⟨j, hj, hw⟩
      exact ⟨j, Nat.lt_succ_of_lt hj, hw⟩
    · have hsame : stepTotal end_name (strace end_name s0 n) =
          strace end_name s0 n := by
        rw [stepTotal, hstep]
      rw [hsucc, hsame]
      refine ih.imp id ?_
      rintro ⟨j, hj, hw⟩
      exact ⟨j, Nat.lt_succ_of_lt hj, hw⟩
    · have hne : ¬ ((strace end_name s0 n).current = end_name) := by
        intro h
        have h2 := hstep
        rw [search_step, if_pos h] at h2
        exact StepOut.noConfusion h2
      rcases hq : pq_get (frontier_after_push (strace end_name s0 n)) with _ | ⟨mv, q'⟩
      · have h2 := hstep
        rw [search_step, if_neg hne, hq] at h2
        exact StepOut.noConfusion h2
      · have h2 := hstep
        rw [search_step, if_neg hne, hq] at h2
        have hs' : advance (strace end_name s0 n) mv q' = s' :=
          StepOut.next.inj h2
        right
        refine ⟨n, Nat.lt_succ_self n, ?_⟩
        have hcurr : (strace end_name s0 (n + 1)).current =
            mv.edge.get_other_node (strace end_name s0 n).current := by
          rw [hsucc, stepTotal, hstep, ← hs']
          rfl
        rw [hcurr, writtenNode, if_neg hne, hq]
        rfl

/-- Claim C8 as amended: when the extracted move's edge starts at the
current node, the node whose cost `compute_cost` reads is exactly the
current node, and the current node is the start node (whose cost the
initialization assigned) or a node some earlier iteration of the search
assigned; but when a stale move whose edge does not start at the current
node is extracted, the far endpoint's cost is read even though it may
still hold the infinite sentinel (see the counterexample). -/
theorem dijkstra_c8_fresh_read_amended (end_name : String) (s0 : SState) (k : Nat)
    (mv : PossibleMove) (q' : List PossibleMove)
    (hend : (strace end_name s0 k).current ≠ end_name)
    (hpop : pq_get (frontier_after_push (strace end_name s0 k)) = some (mv, q'))
    (hfresh : mv.edge.start_node = (strace end_name s0 k).current) :
    readNode end_name (strace end_name s0 k) =
      some ((strace end_name s0 k).current) ∧
    ((strace end_name s0 k).current = s0.current ∨
      ∃ j, j < k ∧ writtenNode end_name (strace end_name s0 j) =
        some ((strace end_name s0 k).current)) := by
  constructor
  · rw [readNode, if_neg hend, hpop, Option.map_some']
    exact congrArg some (get_other_node_round mv.edge _ hfresh)
  · exact strace_written end_name s0 k

/-- Counterexample for C8: in the C1 scenario, after one iteration the
only node written so far is B; the second iteration extracts the stale
move (A, A-C, 3) and `compute_cost` reads node C — whose cost is still the
sentinel INFINITY, never assigned by the search — and uses it as a real
path cost, assigning 3 + INFINITY to node A. -/
theorem dijkstra_c8_sentinel_read_counterexample :
    readNode "C" (strace "C" c1s0 1) = some "C" ∧
    (getNode (strace "C" c1s0 1).graph "C").cost = INFINITY ∧
    writtenNode "C" (strace "C" c1s0 0) = some "B" ∧
    (getNode (strace "C" c1s0 2).graph "A").cost = 3 + INFINITY := by
  refine ⟨rfl, rfl, rfl, rfl⟩

/-- Witness for C8 as amended, on the chain A-B-C after one iteration:
the fresh move (B, B-C, 3) makes the search read the current node B,
which iteration 0 wrote. -/
theorem dijkstra_c8_fresh_read_amended_witness :
    readNode "C" (strace "C" c8s0 1) = some ((strace "C" c8s0 1).current) ∧
    ((strace "C" c8s0 1).current = c8s0.current ∨
      ∃ j, j < 1 ∧ writtenNode "C" (strace "C" c8s0 j) =
        some ((strace "C" c8s0 1).current)) :=
  dijkstra_c8_fresh_read_amended "C" c8s0 1 ⟨"B", ⟨"B", "C", 2⟩, 3⟩ []
    (by decide) (by decide) (by decide)
